import Mathlib

/-!
Verification of `main.py` from AS207960/switch-maintenance.

The development shallowly embeds the program: the timezone resolver
`get_timezone_name`, the timestamp parser `parse_switch_timestamp`, the
paginated status-page fetcher `get_statuspage_maintenance`, and the
reconciliation loop of `main`.  Machine-external data (the pytz zone
database, the remote HTTP services) appear as parameters; exceptions become
`Option`/`Except` results; the `while True` fetch loop gets explicit fuel.
-/

namespace SwitchMaintenance

/-- Uppercase an ASCII character, modelling Python `str.upper` restricted to
ASCII (the timezone abbreviations compared at `main.py` line 47 are ASCII). -/
def charUpper (c : Char) : Char :=
  if 'a' ≤ c ∧ c ≤ 'z' then Char.ofNat (c.toNat - 32) else c

/-- Case-insensitive equality of strings via `charUpper`, the model of
`a.upper() == b.upper()`. -/
def caseEq (a b : String) : Bool :=
  a.data.map charUpper == b.data.map charUpper

/-- Split a character list on a separator character, keeping empty pieces: the
model of Python `str.split(sep)` for a one-character separator
(`"".split(" ")` is `['']`, `"a  b".split(" ")` is `['a', '', 'b']`). -/
def splitChar (sep : Char) : List Char → List (List Char)
  | [] => [[]]
  | c :: cs =>
    if c = sep then [] :: splitChar sep cs
    else
      match splitChar sep cs with
      | [] => [[c]]
      | t :: ts => (c :: t) :: ts

/-- Model of Python `ts.split(" ")` at `main.py` line 54. -/
def splitSpace (s : String) : List String :=
  (splitChar ' ' s.data).map (fun cs => String.mk cs)

/-- Model of Python `" ".join(parts)` at `main.py` line 57. -/
def joinSpace : List String → String
  | [] => ""
  | [x] => x
  | x :: xs => x ++ " " ++ joinSpace xs

/-- Model of Python `int(s)` on a string (`main.py` line 32): strip surrounding
whitespace, an optional sign, then a nonempty run of ASCII digits (PEP 515
underscore grouping and non-ASCII digits are not modelled; no timestamp token
uses them). -/
def pyInt? (s : String) : Option Int :=
  let t := ((s.data.dropWhile Char.isWhitespace).reverse.dropWhile
    Char.isWhitespace).reverse
  let sd : Int × List Char :=
    match t with
    | '-' :: rest => (-1, rest)
    | '+' :: rest => (1, rest)
    | _ => (1, t)
  if sd.2 ≠ [] ∧ sd.2.all Char.isDigit then
    some (sd.1 * ((sd.2.foldl (fun a c => a * 10 + (c.toNat - 48)) 0 : Nat) : Int))
  else none

/-- Naive calendar datetime: the model of a timezone-free Python `datetime`. -/
structure Naive where
  year : Int
  month : Nat
  day : Nat
  hour : Nat
  minute : Nat
  second : Nat
deriving DecidableEq

/-- Proleptic-Gregorian leap-year rule, as used by Python `datetime`. -/
def isLeap (y : Int) : Bool := y % 4 == 0 && (y % 100 != 0 || y % 400 == 0)

/-- Length of a month in the proleptic Gregorian calendar (the `datetime`
constructor's day bound). -/
def daysInMonth (y : Int) (m : Nat) : Nat :=
  if m = 2 then (if isLeap y then 29 else 28)
  else if m = 4 ∨ m = 6 ∨ m = 9 ∨ m = 11 then 30
  else 31

/-- Days since 1970-01-01 of a proleptic Gregorian date (Howard Hinnant's
`days_from_civil`): the model of Python `datetime.toordinal` shifted to the
Unix epoch. -/
def daysFromCivil (y : Int) (m d : Nat) : Int :=
  let yAdj : Int := if m ≤ 2 then y - 1 else y
  let era : Int := yAdj.fdiv 400
  let yoe : Int := yAdj - era * 400
  let mp : Int := if m ≤ 2 then (m : Int) + 9 else (m : Int) - 3
  let doy : Int := (153 * mp + 2).fdiv 5 + (d : Int) - 1
  let doe : Int := yoe * 365 + yoe.fdiv 4 - yoe.fdiv 100 + doy
  era * 146097 + doe - 719468

/-- Absolute second count of a naive datetime read as UTC; Python `datetime`
arithmetic and aware-`datetime` comparison are modelled on absolute seconds. -/
def naiveToSec (n : Naive) : Int :=
  86400 * daysFromCivil n.year n.month n.day
    + 3600 * (n.hour : Int) + 60 * (n.minute : Int) + (n.second : Int)

/-- Model of a pytz timezone object: the canonical identifier (its `.zone`
attribute), the abbreviations of its `_transition_info` table (with the zone's
current abbreviation as fallback for zones that have no such table, `main.py`
lines 44-46), and the UTC offset in seconds that `tz.utcoffset(naive_dt)`
reports for a naive local instant (pytz localizes, so the offset is
daylight-saving-aware and a function of the naive instant).  The tz database
is external data, hence a parameter `db` below. -/
structure Zone where
  zone : String
  abbrevs : List String
  utcoffsetAt : Naive → Int

/-- Possible results of `get_timezone_name` (`main.py` lines 27-50): branches
1 and 3 return a pytz zone object, branch 2 returns a plain Python string. -/
inductive TZResult where
  | zone (z : Zone)
  | str (s : String)

/-- Zones of the database whose abbreviation table case-insensitively contains
the token: the contents of `set_zones` built at `main.py` lines 41-48. -/
def candidates (db : List Zone) (token : String) : List Zone :=
  db.filter (fun z => z.abbrevs.any (fun a => caseEq a token))

/-- Model of Python `min(xs, key=lambda z: len(z.zone))`: the first element in
iteration order attaining the minimal identifier length; `none` on an empty
collection (Python raises `ValueError`). -/
def pyMinByLen : List Zone → Option Zone
  | [] => none
  | z :: zs =>
    some (zs.foldl (fun best cur =>
      if cur.zone.length < best.zone.length then cur else best) z)

/-- Model of `get_timezone_name` (`main.py` lines 27-50).  `setIter` gives the
iteration order of the Python `set` built at lines 41-48, which CPython leaves
unspecified for these objects; a faithful instantiation is any function with
`setIter l` a permutation of `l`. -/
def get_timezone_name (db : List Zone) (setIter : List Zone → List Zone)
    (timezone : String) : Option TZResult :=
  match db.find? (fun z => z.zone == timezone) with
  | some z => some (TZResult.zone z)
  | none =>
    match pyInt? timezone with
    | some n =>
      some (TZResult.str
        ("Etc/GMT" ++ (if 0 < n then "+" ++ toString n else toString n)))
    | none =>
      match pyMinByLen (setIter (candidates db timezone)) with
      | some z => some (TZResult.zone z)
      | none => none

/-- Abbreviated weekday names matched by `%a` in the C locale. -/
def weekdayNames : List String := ["Mon", "Tue", "Wed", "Thu", "Fri", "Sat", "Sun"]

/-- Abbreviated month names matched by `%b` in the C locale. -/
def monthNames : List String :=
  ["Jan", "Feb", "Mar", "Apr", "May", "Jun", "Jul", "Aug", "Sep", "Oct", "Nov", "Dec"]

/-- Numeric value of a nonempty all-digit token, else `none`. -/
def digitsVal : List Char → Option Nat
  | [] => none
  | cs =>
    if cs.all Char.isDigit then
      some (cs.foldl (fun a c => a * 10 + (c.toNat - 48)) 0)
    else none

/-- Field matcher for `%a`: case-insensitive membership in the weekday table
(CPython `_strptime` compiles its patterns with `re.IGNORECASE`; the parsed
weekday is not checked against the date). -/
def matchWday (s : String) : Bool := weekdayNames.any (fun w => caseEq w s)

/-- Field matcher for `%b`: case-insensitive month lookup, 1-based. -/
def matchMonth (s : String) : Option Nat :=
  match monthNames.findIdx? (fun w => caseEq w s) with
  | some i => some (i + 1)
  | none => none

/-- Field matcher for a 1-2 digit number at most `hi`: the shape of the `%d`,
`%H`, `%M` and `%S` regular expressions of CPython `_strptime` (each accepts
one or two digits within its range). -/
def matchNum2 (hi : Nat) (cs : List Char) : Option Nat :=
  if cs.length = 1 ∨ cs.length = 2 then
    match digitsVal cs with
    | some v => if v ≤ hi then some v else none
    | none => none
  else none

/-- Field matcher for `%Y`: exactly four digits. -/
def matchYear (cs : List Char) : Option Nat :=
  if cs.length = 4 then digitsVal cs else none

/-- Field matcher for the `%H:%M:%S` portion: three colon-separated numeric
fields (the `%S` pattern admits 60 and 61; the `datetime` constructor rejects
them later). -/
def matchTime (cs : List Char) : Option (Nat × Nat × Nat) :=
  match splitChar ':' cs with
  | [hh, mm, ss] =>
    match matchNum2 23 hh, matchNum2 59 mm, matchNum2 61 ss with
    | some h, some m, some s => some (h, m, s)
    | _, _, _ => none
  | _ => none

/-- Model of `datetime.strptime(new_ts, "%a %b %d %H:%M:%S %Y")` (`main.py`
line 58): five fields separated by runs of one or more spaces, none at either
end (the compiled pattern turns format whitespace into anchored `\s+`), each
field validated by its matcher, then the `datetime` constructor's range checks
(day at least 1 and within the month, second at most 59, year at least 1).
Whitespace characters other than the space are not modelled; `strptime` and
constructor failures are `ValueError` in Python, `none` here. -/
def strptimeAux (raw : List (List Char)) : Option Naive :=
  if raw.head? = some [] then none
  else if raw.getLast? = some [] then none
  else
    match raw.filter (fun t => !t.isEmpty) with
    | [wd, mo, dy, tm, yr] =>
      if matchWday (String.mk wd) then
        match matchMonth (String.mk mo), matchNum2 31 dy, matchTime tm,
            matchYear yr with
        | some m, some d, some (h, mi, s2), some y =>
          if 1 ≤ y ∧ 1 ≤ d ∧ d ≤ daysInMonth (y : Int) m ∧ s2 ≤ 59 then
            some ⟨(y : Int), m, d, h, mi, s2⟩
          else none
        | _, _, _, _ => none
      else none
    | _ => none

/-- Model of `datetime.strptime(new_ts, "%a %b %d %H:%M:%S %Y")`: split on
spaces and hand the pieces to `strptimeAux`. -/
def strptime (s : String) : Option Naive :=
  strptimeAux (splitChar ' ' s.data)

/-- Failure modes of `parse_switch_timestamp`, each modelling the Python
exception raised at the corresponding step: `index` for `parts[-2]` on a list
of fewer than two parts (IndexError); `unresolvable` for `min()` over the
empty candidate set inside `get_timezone_name` (ValueError — the spec's
UnresolvableTimezone); `malformed` for a `strptime` mismatch (ValueError — the
spec's MalformedTimestamp); `attr` for calling `.utcoffset(...)` on the plain
string returned by the numeric branch (AttributeError). -/
inductive ParseErr where
  | index | unresolvable | malformed | attr
deriving DecidableEq

/-- Rejoined date string with the timezone token removed:
`" ".join(parts[:-2] + parts[-1:])` (`main.py` line 57). -/
def new_ts_of (ts : String) : String :=
  joinSpace ((splitSpace ts).take ((splitSpace ts).length - 2)
    ++ (splitSpace ts).drop ((splitSpace ts).length - 1))

/-- Model of `parse_switch_timestamp` (`main.py` lines 53-60), following the
source's evaluation order: split, extract `parts[-2]`, resolve the timezone,
`strptime` the rejoined string, then subtract `utcoffset` and tag the result
as UTC.  The result is the absolute UTC instant in seconds. -/
def parse_switch_timestamp (db : List Zone) (setIter : List Zone → List Zone)
    (ts : String) : Except ParseErr Int :=
  if (splitSpace ts).length < 2 then Except.error ParseErr.index
  else
    match get_timezone_name db setIter
        ((splitSpace ts).getD ((splitSpace ts).length - 2) "") with
    | none => Except.error ParseErr.unresolvable
    | some tzr =>
      match strptime (new_ts_of ts) with
      | none => Except.error ParseErr.malformed
      | some n =>
        match tzr with
        | TZResult.str _ => Except.error ParseErr.attr
        | TZResult.zone z => Except.ok (naiveToSec n - z.utcoffsetAt n)

/-- Decimal digit character. -/
def digitChar : Nat → Char
  | 0 => '0' | 1 => '1' | 2 => '2' | 3 => '3' | 4 => '4'
  | 5 => '5' | 6 => '6' | 7 => '7' | 8 => '8' | 9 => '9'
  | _ => '*'

/-- Two-digit zero-padded decimal. -/
def pad2 (n : Nat) : String := String.mk [digitChar (n / 10), digitChar (n % 10)]

/-- Four-digit zero-padded decimal. -/
def pad4 (n : Nat) : String :=
  String.mk [digitChar (n / 1000), digitChar (n / 100 % 10),
    digitChar (n / 10 % 10), digitChar (n % 10)]

/-- Weekday name of a date, `Mon`-first as in `%a`; day 0 of the epoch
(1970-01-01) was a Thursday. -/
def wdayName (n : Naive) : String :=
  weekdayNames.getD ((daysFromCivil n.year n.month n.day + 3).emod 7).toNat "Mon"

/-- Timestamp string in the registry's format built from a naive local instant
and a timezone token — the round-trip input of the parser:
`<weekday> <month> <day> <HH:MM:SS> <tz> <year>`. -/
def mkTimestamp (n : Naive) (tzTok : String) : String :=
  joinSpace [wdayName n, monthNames.getD (n.month - 1) "Jan", pad2 n.day,
    pad2 n.hour ++ ":" ++ pad2 n.minute ++ ":" ++ pad2 n.second, tzTok,
    pad4 n.year.toNat]

/-- Model of the `SWITCHMaintenance` dataclass (`main.py` lines 17-24), with
`from_time`/`to_time` as absolute UTC instants in seconds. -/
structure SWITCHMaintenance where
  systems : List String
  environment : String
  from_time : Int
  to_time : Int
  reason : String
  remark : Option String
deriving DecidableEq

/-- Status-page incident as the reconciler reads it: `id`, `status`, `impact`,
and `scheduled_for` already normalized to an absolute UTC instant (the value
of `datetime.fromisoformat(m["scheduled_for"].replace("Z", "+00:00"))`,
`main.py` line 130). -/
structure Incident where
  id : String
  status : String
  impact : String
  scheduled_for : Int
deriving DecidableEq

/-- Incident payload built at `main.py` lines 134-151; `scheduled_for` and
`scheduled_until` are the instants whose `isoformat()` strings the payload
carries. -/
structure IncidentPayload where
  scheduled_for : Int
  scheduled_until : Int
  component_ids : List String
  name : String
  status : String
  body : String
  impact_override : String
  scheduled_auto_in_progress : Bool
  scheduled_auto_completed : Bool
  auto_transition_to_maintenance_state : Bool
  auto_transition_to_operational_state : Bool
  auto_tweet_on_creation : Bool
  auto_tweet_one_hour_before : Bool
  auto_tweet_at_beginning : Bool
  auto_tweet_on_completion : Bool
deriving DecidableEq

/-- Write intent issued for one maintenance window: POST (`create`, `main.py`
lines 163-172) or PATCH by incident id (`update`, lines 153-162). -/
inductive WriteIntent where
  | create (payload : IncidentPayload)
  | update (id : String) (payload : IncidentPayload)
deriving DecidableEq

/-- The `incident_data` dictionary (`main.py` lines 134-151). -/
def incident_data (componentId : String) (w : SWITCHMaintenance) :
    IncidentPayload where
  scheduled_for := w.from_time
  scheduled_until := w.to_time
  component_ids := [componentId]
  name := "SWITCH Maintenance"
  status := "scheduled"
  body := "The registry for .ch and .li domains will be undergoing maintenance. Expect an inability to manage, register, or transfer domains with these extensions."
  impact_override := "maintenance"
  scheduled_auto_in_progress := true
  scheduled_auto_completed := true
  auto_transition_to_maintenance_state := true
  auto_transition_to_operational_state := true
  auto_tweet_on_creation := true
  auto_tweet_one_hour_before := true
  auto_tweet_at_beginning := true
  auto_tweet_on_completion := true

/-- Matching loop of `main.py` lines 128-132: scan every incident; the last
one whose `scheduled_for` equals the window start overwrites earlier
matches. -/
def findMatch (incidents : List Incident) (t : Int) : Option Incident :=
  incidents.foldl (fun acc m => if m.scheduled_for == t then some m else acc) none

/-- Window filter of `main.py` lines 120-122. -/
def switchKeep (m : SWITCHMaintenance) : Bool :=
  m.environment == "production" && m.systems.contains "epp.nic.ch"

/-- Incident status filter of `main.py` lines 123-125. -/
def statuspageFilter (l : List Incident) : List Incident :=
  l.filter (fun m => m.status == "scheduled")

/-- Incident impact filter of `main.py` line 106. -/
def statuspageImpactFilter (l : List Incident) : List Incident :=
  l.filter (fun e => e.impact == "maintenance")

/-- Write intent decided for one window (`main.py` lines 127-172): `update` on
the matched incident's id when the scan found one, else `create`. -/
def reconcile_window (componentId : String) (incidents : List Incident)
    (w : SWITCHMaintenance) : WriteIntent :=
  match findMatch incidents w.from_time with
  | some m => WriteIntent.update m.id (incident_data componentId w)
  | none => WriteIntent.create (incident_data componentId w)

/-- Windows paired with their write intents: the loop of `main.py` lines
127-172 applied to the status-filtered incident list received from
`get_statuspage_maintenance`. -/
def main_pairs (componentId : String) (sws : List SWITCHMaintenance)
    (incidents : List Incident) : List (SWITCHMaintenance × WriteIntent) :=
  (sws.filter switchKeep).map
    (fun w => (w, reconcile_window componentId (statuspageFilter incidents) w))

/-- Write intents of one run of `main` (`main.py` lines 117-172). -/
def main_intents (componentId : String) (sws : List SWITCHMaintenance)
    (incidents : List Incident) : List WriteIntent :=
  (main_pairs componentId sws incidents).map Prod.snd

/-- Model of the inner `get_page` of `get_statuspage_maintenance` (`main.py`
lines 90-97): `remote p` is the incident list the service returns for the
`page=p` query.  In Python the `page` parameter has default value 1. -/
def get_page (remote : Nat → List Incident) (page : Nat) : List Incident :=
  remote page

/-- Fetch loop of `main.py` lines 99-104 with explicit fuel (the Python loop
is `while True`); `none` means the loop did not terminate within `fuel`
iterations.  The body calls `get_page()` with no argument (line 100), so the
default `page=1` applies on every iteration; the local `page` counter is
incremented (line 104) but never passed. -/
def statuspage_loop (remote : Nat → List Incident) :
    Nat → List Incident → Nat → Option (List Incident)
  | 0, _, _ => none
  | fuel + 1, out, page =>
    let new_data := get_page remote 1
    let out2 := out ++ new_data
    if new_data.length ≠ 100 then some out2
    else statuspage_loop remote fuel out2 (page + 1)

/-- Model of `get_statuspage_maintenance` (`main.py` lines 86-106): run the
fetch loop, then keep only incidents whose impact is `maintenance`. -/
def get_statuspage_maintenance (remote : Nat → List Incident) (fuel : Nat) :
    Option (List Incident) :=
  (statuspage_loop remote fuel [] 1).map statuspageImpactFilter

/-- Characters of a space-free string. -/
def SpaceFree (s : String) : Prop := ∀ c ∈ s.data, c ≠ ' '

instance spaceFreeDecidable (s : String) : Decidable (SpaceFree s) :=
  inferInstanceAs (Decidable (∀ c ∈ s.data, c ≠ ' '))

/-- Classifier of a resolver result by the identifier it carries, used to state
claims without equality on `Zone` (whose offset field is a function). -/
def resolvedName : Option TZResult → Option String
  | some (TZResult.zone z) => some z.zone
  | some (TZResult.str s) => some s
  | none => none

/-- Classifier used to state that a resolver result is a zone object. -/
def resolvedIsZone : Option TZResult → Bool
  | some (TZResult.zone _) => true
  | _ => false

/-- Sample database entry modelling the tzdata zone `Europe/Zurich` (CET in
winter, CEST with a 2-hour offset from April to October — a concrete
daylight-saving-aware offset function for round-trip witnesses). -/
def zurich : Zone where
  zone := "Europe/Zurich"
  abbrevs := ["CET", "CEST"]
  utcoffsetAt := fun n => if 4 ≤ n.month ∧ n.month ≤ 10 then 7200 else 3600

/-- Sample database entry modelling the tzdata zone `Australia/Sydney`. -/
def sydney : Zone where
  zone := "Australia/Sydney"
  abbrevs := ["AEST", "AEDT"]
  utcoffsetAt := fun _ => 36000

/-- Sample database entry modelling the tzdata zone `Australia/Hobart`; its
identifier has the same length as `Australia/Sydney` and it shares the
abbreviation `AEST`. -/
def hobart : Zone where
  zone := "Australia/Hobart"
  abbrevs := ["AEST", "AEDT"]
  utcoffsetAt := fun _ => 36000

/-- Sample database entry modelling the tzdata zone `Australia/Darwin`, sole
user of the abbreviation `ACST` in its database. -/
def darwin : Zone where
  zone := "Australia/Darwin"
  abbrevs := ["ACST"]
  utcoffsetAt := fun _ => 34200

/-- Sample maintenance window that passes the filter of `main.py` line 121. -/
def goodw : SWITCHMaintenance where
  systems := ["epp.nic.ch"]
  environment := "production"
  from_time := 1000
  to_time := 2000
  reason := "Scheduled maintenance"
  remark := none

/-- Sample maintenance window for a non-production environment. -/
def badw : SWITCHMaintenance where
  systems := ["epp.nic.ch"]
  environment := "staging"
  from_time := 1000
  to_time := 2000
  reason := "Scheduled maintenance"
  remark := none

/-- Sample incident matching `goodw` by start time. -/
def incNew : Incident where
  id := "n1"
  status := "scheduled"
  impact := "maintenance"
  scheduled_for := 1000

/-- Sample incident with a non-maintenance impact at the same start time. -/
def incBad : Incident where
  id := "b1"
  status := "scheduled"
  impact := "major"
  scheduled_for := 1000

/-- Sample scheduled incident at an unrelated start time. -/
def incSched : Incident where
  id := "s1"
  status := "scheduled"
  impact := "maintenance"
  scheduled_for := 555

/-- Sample remote status-page service whose first page holds exactly 100
incidents and whose second page is empty. -/
def remoteFull : Nat → List Incident :=
  fun p => if p = 1 then List.replicate 100 incSched else []

/-! Helper lemmas about the generic list combinators used by the model. -/

theorem optOr_none {α : Type} (o : Option α) : Option.or o none = o := by
  cases o <;> rfl

theorem optOr_some {α : Type} (o : Option α) (a : α) :
    Option.or o (some a) = some (o.getD a) := by
  cases o <;> rfl

theorem optOr_assoc {α : Type} (o p q : Option α) :
    Option.or (Option.or o p) q = Option.or o (Option.or p q) := by
  cases o <;> rfl

theorem head?_concat {α : Type} (l : List α) (a : α) :
    (l ++ [a]).head? = Option.or l.head? (some a) := by
  cases l <;> rfl

/-- Characterization of a last-match-wins fold: the result is the last
element of the list satisfying the predicate, with the initial accumulator as
fallback. -/
theorem foldl_lastwins {α : Type} (p : α → Bool) :
    ∀ (l : List α) (a : Option α),
      l.foldl (fun acc m => if p m then some m else acc) a
        = Option.or ((l.filter p).reverse.head?) a := by
  intro l
  induction l with
  | nil => intro a; rfl
  | cons x xs ih =>
    intro a
    by_cases hx : p x
    · simp only [List.foldl_cons, List.filter_cons, hx, if_true,
        List.reverse_cons, ih]
      rw [head?_concat, optOr_assoc]
      rfl
    · simp only [List.foldl_cons, List.filter_cons, hx, if_false,
        Bool.false_eq_true, ih]

theorem findMatch_eq (l : List Incident) (t : Int) :
    findMatch l t
      = ((l.filter (fun m => m.scheduled_for == t)).reverse.head?) := by
  unfold findMatch
  rw [foldl_lastwins, optOr_none]

theorem findMatch_sound {l : List Incident} {t : Int} {m : Incident}
    (h : findMatch l t = some m) : m ∈ l ∧ m.scheduled_for = t := by
  rw [findMatch_eq] at h
  have hm : m ∈ (l.filter (fun m => m.scheduled_for == t)).reverse := by
    cases hrev : (l.filter (fun m => m.scheduled_for == t)).reverse with
    | nil => rw [hrev] at h; cases h
    | cons y ys =>
      rw [hrev] at h
      cases h
      exact List.mem_cons_self _ _
  rw [List.mem_reverse, List.mem_filter] at hm
  exact ⟨hm.1, by simpa using hm.2⟩

theorem findMatch_isSome_of_mem {l : List Incident} {t : Int} {m : Incident}
    (hm : m ∈ l) (ht : m.scheduled_for = t) :
    ∃ mm, findMatch l t = some mm := by
  rw [findMatch_eq]
  have : m ∈ (l.filter (fun m => m.scheduled_for == t)).reverse := by
    rw [List.mem_reverse, List.mem_filter]
    exact ⟨hm, by simpa using ht⟩
  cases hrev : (l.filter (fun m => m.scheduled_for == t)).reverse with
  | nil => rw [hrev] at this; cases this
  | cons y ys => exact ⟨y, rfl⟩

/-- getLast? of the filtered list is the head of its reverse. -/
theorem findMatch_eq_getLast (l : List Incident) (t : Int) :
    findMatch l t = (l.filter (fun m => m.scheduled_for == t)).getLast? := by
  rw [findMatch_eq, List.head?_reverse]

/-! Helper lemmas about splitting and joining space-separated tokens. -/

theorem splitChar_cons_sep (sep : Char) (cs : List Char) :
    splitChar sep (sep :: cs) = [] :: splitChar sep cs := by
  simp [splitChar]

theorem splitChar_ne_nil (sep : Char) : ∀ cs, splitChar sep cs ≠ [] := by
  intro cs
  induction cs with
  | nil => simp [splitChar]
  | cons c cs ih =>
    by_cases h : c = sep
    · simp [splitChar, h]
    · simp only [splitChar, h, if_false]
      cases hs : splitChar sep cs with
      | nil => simp
      | cons t ts => simp

theorem splitChar_append_sep (sep : Char) (tok rest : List Char)
    (h : ∀ c ∈ tok, c ≠ sep) :
    splitChar sep (tok ++ sep :: rest) = tok :: splitChar sep rest := by
  induction tok with
  | nil => simpa using splitChar_cons_sep sep rest
  | cons c cs ih =>
    have hc : c ≠ sep := h c (List.mem_cons_self _ _)
    have ihr := ih (fun x hx => h x (List.mem_cons_of_mem _ hx))
    simp only [List.cons_append, splitChar, hc, if_false]
    rw [show cs.append (sep :: rest) = cs ++ sep :: rest from rfl, ihr]

theorem splitChar_nosep (sep : Char) (tok : List Char)
    (h : ∀ c ∈ tok, c ≠ sep) : splitChar sep tok = [tok] := by
  induction tok with
  | nil => rfl
  | cons c cs ih =>
    have hc : c ≠ sep := h c (List.mem_cons_self _ _)
    have ihr := ih (fun x hx => h x (List.mem_cons_of_mem _ hx))
    simp only [splitChar, hc, if_false, ihr]

theorem data_append (a b : String) : (a ++ b).data = a.data ++ b.data := rfl

theorem data_join_cons (x y : String) (ys : List String) :
    (joinSpace (x :: y :: ys)).data
      = x.data ++ ' ' :: (joinSpace (y :: ys)).data := by
  show (x ++ " " ++ joinSpace (y :: ys)).data = _
  rw [data_append, data_append]
  simp

/-- Splitting a joined list of nonempty space-free tokens returns the
tokens. -/
theorem splitSpace_joinSpace :
    ∀ (toks : List String), toks ≠ [] →
      (∀ t ∈ toks, t ≠ "" ∧ SpaceFree t) →
      splitSpace (joinSpace toks) = toks := by
  intro toks
  induction toks with
  | nil => intro h; cases h rfl
  | cons x xs ih =>
    intro _ hall
    cases xs with
    | nil =>
      have hx := hall x (List.mem_cons_self _ _)
      show (splitChar ' ' x.data).map (fun cs => String.mk cs) = [x]
      rw [splitChar_nosep ' ' x.data hx.2]
      rfl
    | cons y ys =>
      have hx := hall x (List.mem_cons_self _ _)
      have ihr := ih (by simp)
        (fun t ht => hall t (List.mem_cons_of_mem _ ht))
      show (splitChar ' ' (joinSpace (x :: y :: ys)).data).map
        (fun cs => String.mk cs) = x :: y :: ys
      rw [data_join_cons, splitChar_append_sep ' ' _ _ hx.2]
      simpa [splitSpace] using ihr

/-! Helper lemmas about digit rendering and the field matchers. -/

theorem digitChar_spec (a : Nat) (h : a < 10) :
    (digitChar a).isDigit = true ∧ (digitChar a).toNat - 48 = a := by
  interval_cases a <;> exact ⟨by decide, by decide⟩

theorem digitChar_ne_space (a : Nat) : digitChar a ≠ ' ' := by
  unfold digitChar; split <;> decide

theorem digitChar_ne_colon (a : Nat) : digitChar a ≠ ':' := by
  unfold digitChar; split <;> decide

theorem data_ne_nil (s : String) (h : s ≠ "") : s.data ≠ [] := by
  intro hd
  apply h
  cases s with
  | mk l => cases hd; rfl

theorem digitsVal_pad2 (n : Nat) (h : n ≤ 99) :
    digitsVal (pad2 n).data = some n := by
  have h1 : n / 10 < 10 := by omega
  have h2 : n % 10 < 10 := Nat.mod_lt _ (by norm_num)
  obtain ⟨d1a, d1b⟩ := digitChar_spec _ h1
  obtain ⟨d2a, d2b⟩ := digitChar_spec _ h2
  show digitsVal [digitChar (n / 10), digitChar (n % 10)] = some n
  simp only [digitsVal, List.all_cons, List.all_nil, d1a, d2a, Bool.and_self,
    Bool.and_true, Bool.true_and, if_true, List.foldl_cons, List.foldl_nil]
  rw [Nat.zero_mul, Nat.zero_add, d1b, d2b]
  congr 1
  omega

theorem matchNum2_pad2 (hi n : Nat) (hhi : n ≤ hi) (h99 : n ≤ 99) :
    matchNum2 hi (pad2 n).data = some n := by
  have hlen : (pad2 n).data.length = 2 := rfl
  simp only [matchNum2, hlen, digitsVal_pad2 n h99]
  simp [hhi]

theorem matchYear_pad4 (y : Nat) (h : y ≤ 9999) :
    matchYear (pad4 y).data = some y := by
  have h1 : y / 1000 < 10 := by omega
  have h2 : y / 100 % 10 < 10 := Nat.mod_lt _ (by norm_num)
  have h3 : y / 10 % 10 < 10 := Nat.mod_lt _ (by norm_num)
  have h4 : y % 10 < 10 := Nat.mod_lt _ (by norm_num)
  obtain ⟨d1a, d1b⟩ := digitChar_spec _ h1
  obtain ⟨d2a, d2b⟩ := digitChar_spec _ h2
  obtain ⟨d3a, d3b⟩ := digitChar_spec _ h3
  obtain ⟨d4a, d4b⟩ := digitChar_spec _ h4
  have hlen : (pad4 y).data.length = 4 := rfl
  show matchYear [digitChar (y / 1000), digitChar (y / 100 % 10),
    digitChar (y / 10 % 10), digitChar (y % 10)] = some y
  simp only [matchYear, digitsVal, List.length_cons, List.length_nil,
    List.all_cons, List.all_nil, d1a, d2a, d3a, d4a, Bool.and_self,
    Bool.and_true, Bool.true_and, if_true, List.foldl_cons, List.foldl_nil]
  rw [Nat.zero_mul, Nat.zero_add, d1b, d2b, d3b, d4b]
  congr 1
  omega

theorem pad2_ne_nil (n : Nat) : pad2 n ≠ "" := by
  intro h
  exact List.cons_ne_nil _ _ (congrArg String.data h)

theorem pad4_ne_nil (n : Nat) : pad4 n ≠ "" := by
  intro h
  exact List.cons_ne_nil _ _ (congrArg String.data h)

theorem pad2_spaceFree (n : Nat) : SpaceFree (pad2 n) := by
  intro c hc
  have hc2 : c ∈ [digitChar (n / 10), digitChar (n % 10)] := hc
  simp only [List.mem_cons, List.not_mem_nil, or_false] at hc2
  rcases hc2 with h | h <;> (subst h; exact digitChar_ne_space _)

theorem pad4_spaceFree (n : Nat) : SpaceFree (pad4 n) := by
  intro c hc
  have hc2 : c ∈ [digitChar (n / 1000), digitChar (n / 100 % 10),
    digitChar (n / 10 % 10), digitChar (n % 10)] := hc
  simp only [List.mem_cons, List.not_mem_nil, or_false] at hc2
  rcases hc2 with h | h | h | h <;> (subst h; exact digitChar_ne_space _)

theorem pad2_noColon (n : Nat) : ∀ c ∈ (pad2 n).data, c ≠ ':' := by
  intro c hc
  have hc2 : c ∈ [digitChar (n / 10), digitChar (n % 10)] := hc
  simp only [List.mem_cons, List.not_mem_nil, or_false] at hc2
  rcases hc2 with h | h <;> (subst h; exact digitChar_ne_colon _)

theorem timeStr_data (h mi s : Nat) :
    (pad2 h ++ ":" ++ pad2 mi ++ ":" ++ pad2 s).data
      = (pad2 h).data ++ ':' :: ((pad2 mi).data ++ ':' :: (pad2 s).data) := by
  show ((((pad2 h ++ ":") ++ pad2 mi) ++ ":") ++ pad2 s).data = _
  rw [data_append, data_append, data_append, data_append]
  simp

theorem matchTime_mk (h mi s : Nat) (hh : h ≤ 23) (hm : mi ≤ 59)
    (hs : s ≤ 61) :
    matchTime (pad2 h ++ ":" ++ pad2 mi ++ ":" ++ pad2 s).data
      = some (h, mi, s) := by
  rw [matchTime, timeStr_data,
    splitChar_append_sep ':' _ _ (pad2_noColon h),
    splitChar_append_sep ':' _ _ (pad2_noColon mi),
    splitChar_nosep ':' _ (pad2_noColon s)]
  simp only [matchNum2_pad2 23 h hh (by omega), matchNum2_pad2 59 mi hm (by omega),
    matchNum2_pad2 61 s hs (by omega)]

theorem timeStr_ne_nil (h mi s : Nat) :
    pad2 h ++ ":" ++ pad2 mi ++ ":" ++ pad2 s ≠ "" := by
  intro he
  have h2 := congrArg String.data he
  rw [timeStr_data] at h2
  have : (pad2 h).data ≠ [] := data_ne_nil _ (pad2_ne_nil h)
  cases hd : (pad2 h).data with
  | nil => exact this hd
  | cons c cs => rw [hd] at h2; exact List.cons_ne_nil _ _ h2

theorem timeStr_spaceFree (h mi s : Nat) :
    SpaceFree (pad2 h ++ ":" ++ pad2 mi ++ ":" ++ pad2 s) := by
  intro c hc
  rw [timeStr_data] at hc
  rcases List.mem_append.mp hc with h1 | h1
  · exact pad2_spaceFree h c h1
  · rcases List.mem_cons.mp h1 with h2 | h2
    · subst h2; decide
    · rcases List.mem_append.mp h2 with h3 | h3
      · exact pad2_spaceFree mi c h3
      · rcases List.mem_cons.mp h3 with h4 | h4
        · subst h4; decide
        · exact pad2_spaceFree s c h4

theorem matchWday_getD (i : Nat) :
    matchWday (weekdayNames.getD i "Mon") = true := by
  match i with
  | 0 => decide
  | 1 => decide
  | 2 => decide
  | 3 => decide
  | 4 => decide
  | 5 => decide
  | 6 => decide
  | _ + 7 => exact (by decide : matchWday "Mon" = true)

theorem weekday_tok_ok (i : Nat) :
    weekdayNames.getD i "Mon" ≠ "" ∧ SpaceFree (weekdayNames.getD i "Mon") := by
  match i with
  | 0 => exact ⟨by decide, by decide⟩
  | 1 => exact ⟨by decide, by decide⟩
  | 2 => exact ⟨by decide, by decide⟩
  | 3 => exact ⟨by decide, by decide⟩
  | 4 => exact ⟨by decide, by decide⟩
  | 5 => exact ⟨by decide, by decide⟩
  | 6 => exact ⟨by decide, by decide⟩
  | _ + 7 =>
    exact ⟨(by decide : ("Mon" : String) ≠ ""), (by decide : SpaceFree "Mon")⟩

theorem matchMonth_getD (m : Nat) (h1 : 1 ≤ m) (h2 : m ≤ 12) :
    matchMonth (monthNames.getD (m - 1) "Jan") = some m := by
  interval_cases m <;> decide

theorem month_tok_ok (m : Nat) (h1 : 1 ≤ m) (h2 : m ≤ 12) :
    monthNames.getD (m - 1) "Jan" ≠ ""
      ∧ SpaceFree (monthNames.getD (m - 1) "Jan") := by
  interval_cases m <;> exact ⟨by decide, by decide⟩

/-- Splitting the joined token list character-wise returns the tokens'
character lists. -/
theorem splitChar_join_data :
    ∀ (toks : List String), toks ≠ [] →
      (∀ t ∈ toks, t ≠ "" ∧ SpaceFree t) →
      splitChar ' ' (joinSpace toks).data = toks.map String.data := by
  intro toks
  induction toks with
  | nil => intro h; cases h rfl
  | cons x xs ih =>
    intro _ hall
    cases xs with
    | nil =>
      have hx := hall x (List.mem_cons_self _ _)
      show splitChar ' ' x.data = [x.data]
      exact splitChar_nosep ' ' x.data hx.2
    | cons y ys =>
      have hx := hall x (List.mem_cons_self _ _)
      have ihr := ih (by simp) (fun t ht => hall t (List.mem_cons_of_mem _ ht))
      rw [data_join_cons, splitChar_append_sep ' ' _ _ hx.2, ihr]
      rfl

theorem bne_isEmpty {α : Type} (l : List α) (h : l ≠ []) :
    (!l.isEmpty) = true := by
  cases l with
  | nil => cases h rfl
  | cons a as => rfl

theorem daysInMonth_le (y : Int) (m : Nat) : daysInMonth y m ≤ 31 := by
  unfold daysInMonth
  split
  · split <;> omega
  · split <;> omega

/-- Round trip through the field matchers: `strptime` recovers the naive
instant from which the five-token date string was built. -/
theorem strptime_mk (n : Naive) (hy1 : 1 ≤ n.year) (hy2 : n.year ≤ 9999)
    (hm1 : 1 ≤ n.month) (hm2 : n.month ≤ 12)
    (hd1 : 1 ≤ n.day) (hd2 : n.day ≤ daysInMonth n.year n.month)
    (hh : n.hour ≤ 23) (hmi : n.minute ≤ 59) (hs : n.second ≤ 59) :
    strptime (joinSpace [wdayName n, monthNames.getD (n.month - 1) "Jan",
      pad2 n.day, pad2 n.hour ++ ":" ++ pad2 n.minute ++ ":" ++ pad2 n.second,
      pad4 n.year.toNat]) = some n := by
  have hwd := weekday_tok_ok ((daysFromCivil n.year n.month n.day + 3).emod 7).toNat
  have hmo := month_tok_ok n.month hm1 hm2
  have hall : ∀ t ∈ [wdayName n, monthNames.getD (n.month - 1) "Jan",
      pad2 n.day, pad2 n.hour ++ ":" ++ pad2 n.minute ++ ":" ++ pad2 n.second,
      pad4 n.year.toNat], t ≠ "" ∧ SpaceFree t := by
    intro t ht
    simp only [List.mem_cons, List.not_mem_nil, or_false] at ht
    rcases ht with h | h | h | h | h
    · subst h; exact hwd
    · subst h; exact hmo
    · subst h; exact ⟨pad2_ne_nil _, pad2_spaceFree _⟩
    · subst h; exact ⟨timeStr_ne_nil _ _ _, timeStr_spaceFree _ _ _⟩
    · subst h; exact ⟨pad4_ne_nil _, pad4_spaceFree _⟩
  have hsplit := splitChar_join_data _ (by simp) hall
  unfold strptime
  rw [hsplit]
  show strptimeAux [(wdayName n).data, (monthNames.getD (n.month - 1) "Jan").data,
    (pad2 n.day).data,
    (pad2 n.hour ++ ":" ++ pad2 n.minute ++ ":" ++ pad2 n.second).data,
    (pad4 n.year.toNat).data] = some n
  have e1 : (!(wdayName n).data.isEmpty) = true :=
    bne_isEmpty _ (data_ne_nil _ hwd.1)
  have e2 : (!(monthNames.getD (n.month - 1) "Jan").data.isEmpty) = true :=
    bne_isEmpty _ (data_ne_nil _ hmo.1)
  have e3 : (!(pad2 n.day).data.isEmpty) = true :=
    bne_isEmpty _ (data_ne_nil _ (pad2_ne_nil _))
  have e4 : (!(pad2 n.hour ++ ":" ++ pad2 n.minute ++ ":"
      ++ pad2 n.second).data.isEmpty) = true :=
    bne_isEmpty _ (data_ne_nil _ (timeStr_ne_nil _ _ _))
  have e5 : (!(pad4 n.year.toNat).data.isEmpty) = true :=
    bne_isEmpty _ (data_ne_nil _ (pad4_ne_nil _))
  have c1 : ¬ ([(wdayName n).data, (monthNames.getD (n.month - 1) "Jan").data,
      (pad2 n.day).data,
      (pad2 n.hour ++ ":" ++ pad2 n.minute ++ ":" ++ pad2 n.second).data,
      (pad4 n.year.toNat).data].head? = some []) := by
    simp only [List.head?_cons, Option.some.injEq]
    exact data_ne_nil _ hwd.1
  have c2 : ¬ ([(wdayName n).data, (monthNames.getD (n.month - 1) "Jan").data,
      (pad2 n.day).data,
      (pad2 n.hour ++ ":" ++ pad2 n.minute ++ ":" ++ pad2 n.second).data,
      (pad4 n.year.toNat).data].getLast? = some []) := by
    simp only [List.getLast?_cons_cons, List.getLast?_singleton,
      Option.some.injEq]
    exact data_ne_nil _ (pad4_ne_nil _)
  unfold strptimeAux
  rw [if_neg c1, if_neg c2]
  simp only [List.filter_cons, List.filter_nil, e1, e2, e3, e4, e5, if_true]
  have hday99 : n.day ≤ 31 := hd2.trans (daysInMonth_le _ _)
  have hy0 : (0 : Int) ≤ n.year := by omega
  have hyN : n.year.toNat ≤ 9999 := by omega
  have hwdm : matchWday (wdayName n) = true := matchWday_getD _
  rw [show String.mk (wdayName n).data = wdayName n from rfl,
    show String.mk (monthNames.getD (n.month - 1) "Jan").data
      = monthNames.getD (n.month - 1) "Jan" from rfl]
  rw [if_pos hwdm]
  rw [matchMonth_getD n.month hm1 hm2,
    matchNum2_pad2 31 n.day hday99 (by omega),
    matchTime_mk n.hour n.minute n.second hh hmi (by omega),
    matchYear_pad4 n.year.toNat hyN]
  have hcond : 1 ≤ n.year.toNat ∧ 1 ≤ n.day
      ∧ n.day ≤ daysInMonth (n.year.toNat : Int) n.month ∧ n.second ≤ 59 := by
    rw [Int.toNat_of_nonneg hy0]
    exact ⟨by omega, hd1, hd2, hs⟩
  show (if 1 ≤ n.year.toNat ∧ 1 ≤ n.day
      ∧ n.day ≤ daysInMonth (n.year.toNat : Int) n.month ∧ n.second ≤ 59 then
      some (⟨(n.year.toNat : Int), n.month, n.day, n.hour, n.minute,
        n.second⟩ : Naive)
    else none) = some n
  rw [if_pos hcond]
  rw [show ((n.year.toNat : Int)) = n.year from Int.toNat_of_nonneg hy0]

/-- C5: round trip through the full parser — for every well-formed timestamp
string built from a known local instant and a timezone token that resolves to
a zone, parsing returns the correct absolute UTC instant: the naive local
instant minus the zone's UTC offset computed at that naive local instant
(the offset is a function of the naive instant, so daylight saving is
honoured), tagged as UTC. -/
theorem c5_parse_roundtrip (db : List Zone) (setIter : List Zone → List Zone)
    (n : Naive) (z : Zone) (tzTok : String)
    (hy1 : 1 ≤ n.year) (hy2 : n.year ≤ 9999)
    (hm1 : 1 ≤ n.month) (hm2 : n.month ≤ 12)
    (hd1 : 1 ≤ n.day) (hd2 : n.day ≤ daysInMonth n.year n.month)
    (hh : n.hour ≤ 23) (hmi : n.minute ≤ 59) (hs : n.second ≤ 59)
    (htz1 : tzTok ≠ "") (htz2 : SpaceFree tzTok)
    (hz : get_timezone_name db setIter tzTok = some (TZResult.zone z)) :
    parse_switch_timestamp db setIter (mkTimestamp n tzTok)
      = Except.ok (naiveToSec n - z.utcoffsetAt n) := by
  have hwd := weekday_tok_ok ((daysFromCivil n.year n.month n.day + 3).emod 7).toNat
  have hmo := month_tok_ok n.month hm1 hm2
  have hall6 : ∀ t ∈ [wdayName n, monthNames.getD (n.month - 1) "Jan",
      pad2 n.day, pad2 n.hour ++ ":" ++ pad2 n.minute ++ ":" ++ pad2 n.second,
      tzTok, pad4 n.year.toNat], t ≠ "" ∧ SpaceFree t := by
    intro t ht
    simp only [List.mem_cons, List.not_mem_nil, or_false] at ht
    rcases ht with h | h | h | h | h | h
    · subst h; exact hwd
    · subst h; exact hmo
    · subst h; exact ⟨pad2_ne_nil _, pad2_spaceFree _⟩
    · subst h; exact ⟨timeStr_ne_nil _ _ _, timeStr_spaceFree _ _ _⟩
    · subst h; exact ⟨htz1, htz2⟩
    · subst h; exact ⟨pad4_ne_nil _, pad4_spaceFree _⟩
  have hsp : splitSpace (mkTimestamp n tzTok)
      = [wdayName n, monthNames.getD (n.month - 1) "Jan", pad2 n.day,
        pad2 n.hour ++ ":" ++ pad2 n.minute ++ ":" ++ pad2 n.second, tzTok,
        pad4 n.year.toNat] :=
    splitSpace_joinSpace _ (by simp) hall6
  have hnew : new_ts_of (mkTimestamp n tzTok)
      = joinSpace [wdayName n, monthNames.getD (n.month - 1) "Jan", pad2 n.day,
        pad2 n.hour ++ ":" ++ pad2 n.minute ++ ":" ++ pad2 n.second,
        pad4 n.year.toNat] := by
    unfold new_ts_of
    rw [hsp]
    rfl
  have hstr := strptime_mk n hy1 hy2 hm1 hm2 hd1 hd2 hh hmi hs
  have hlen : ¬ ((splitSpace (mkTimestamp n tzTok)).length < 2) := by
    rw [hsp]; simp
  have hget : (splitSpace (mkTimestamp n tzTok)).getD
      ((splitSpace (mkTimestamp n tzTok)).length - 2) "" = tzTok := by
    rw [hsp]
    rfl
  unfold parse_switch_timestamp
  rw [if_neg hlen, hget, hz, hnew, hstr]

/-! Helper lemmas about `pyMinByLen`. -/

theorem foldlMin_spec : ∀ (zs : List Zone) (z : Zone),
    (zs.foldl (fun best cur =>
      if cur.zone.length < best.zone.length then cur else best) z) ∈ z :: zs
    ∧ ∀ w ∈ z :: zs,
        (zs.foldl (fun best cur =>
          if cur.zone.length < best.zone.length then cur else best)
            z).zone.length ≤ w.zone.length := by
  intro zs
  induction zs with
  | nil =>
    intro z
    refine ⟨List.mem_cons_self _ _, ?_⟩
    intro w hw
    simp only [List.mem_cons, List.not_mem_nil, or_false] at hw
    subst hw
    exact le_refl _
  | cons c cs ih =>
    intro z
    rw [List.foldl_cons]
    by_cases hc : c.zone.length < z.zone.length
    · rw [if_pos hc]
      obtain ⟨hmem, hmin⟩ := ih c
      refine ⟨?_, ?_⟩
      · rcases List.mem_cons.mp hmem with h | h
        · rw [h]
          exact List.mem_cons_of_mem _ (List.mem_cons_self _ _)
        · exact List.mem_cons_of_mem _ (List.mem_cons_of_mem _ h)
      · intro w hw
        rcases List.mem_cons.mp hw with h | h
        · rw [h]
          exact le_of_lt (lt_of_le_of_lt (hmin c (List.mem_cons_self _ _)) hc)
        · exact hmin w h
    · rw [if_neg hc]
      obtain ⟨hmem, hmin⟩ := ih z
      refine ⟨?_, ?_⟩
      · rcases List.mem_cons.mp hmem with h | h
        · rw [h]
          exact List.mem_cons_self _ _
        · exact List.mem_cons_of_mem _ (List.mem_cons_of_mem _ h)
      · intro w hw
        rcases List.mem_cons.mp hw with h | h
        · rw [h]
          exact hmin z (List.mem_cons_self _ _)
        · rcases List.mem_cons.mp h with h2 | h2
          · rw [h2]
            exact le_trans (hmin z (List.mem_cons_self _ _)) (le_of_not_lt hc)
          · exact hmin w (List.mem_cons_of_mem _ h2)

theorem pyMinByLen_spec {l : List Zone} {z : Zone}
    (h : pyMinByLen l = some z) :
    z ∈ l ∧ ∀ w ∈ l, z.zone.length ≤ w.zone.length := by
  cases l with
  | nil => cases h
  | cons c cs =>
    obtain ⟨hmem, hmin⟩ := foldlMin_spec cs c
    cases h
    exact ⟨hmem, hmin⟩

theorem pyMinByLen_isSome {l : List Zone} (h : l ≠ []) :
    ∃ z, pyMinByLen l = some z := by
  cases l with
  | nil => cases h rfl
  | cons c cs => exact ⟨_, rfl⟩

/-! Claim theorems. -/

/-- C1: For every filtered MaintenanceWindow `w` the reconciler emits exactly
one write intent (one intent per window surviving the filter): it selects the
last filtered StatusPageIncident in iteration order whose `scheduled_for`
equals `w.from_time` exactly, emitting `update` with that incident's id when a
match exists and `create` otherwise, and the payload carries
`scheduled_for = w.from_time`, `scheduled_until = w.to_time`, the fixed name
and impact, and every auto-transition/auto-tweet flag true. -/
theorem c1_one_intent_last_match_payload
    (componentId : String) (incs : List Incident) (w : SWITCHMaintenance)
    (sws : List SWITCHMaintenance) :
    reconcile_window componentId incs w
      = (match (incs.filter
            (fun m => m.scheduled_for == w.from_time)).getLast? with
         | some m => WriteIntent.update m.id (incident_data componentId w)
         | none => WriteIntent.create (incident_data componentId w))
    ∧ (main_intents componentId sws incs).length
        = (sws.filter switchKeep).length
    ∧ (incident_data componentId w).scheduled_for = w.from_time
    ∧ (incident_data componentId w).scheduled_until = w.to_time
    ∧ (incident_data componentId w).name = "SWITCH Maintenance"
    ∧ (incident_data componentId w).impact_override = "maintenance"
    ∧ (incident_data componentId w).status = "scheduled"
    ∧ (incident_data componentId w).component_ids = [componentId]
    ∧ (incident_data componentId w).scheduled_auto_in_progress = true
    ∧ (incident_data componentId w).scheduled_auto_completed = true
    ∧ (incident_data componentId w).auto_transition_to_maintenance_state = true
    ∧ (incident_data componentId w).auto_transition_to_operational_state = true
    ∧ (incident_data componentId w).auto_tweet_on_creation = true
    ∧ (incident_data componentId w).auto_tweet_one_hour_before = true
    ∧ (incident_data componentId w).auto_tweet_at_beginning = true
    ∧ (incident_data componentId w).auto_tweet_on_completion = true := by
  refine ⟨?_, ?_, rfl, rfl, rfl, rfl, rfl, rfl, rfl, rfl, rfl, rfl, rfl, rfl,
    rfl, rfl⟩
  · unfold reconcile_window
    rw [findMatch_eq_getLast]
  · simp [main_intents, main_pairs]

/-- C2 (code bug): a token that is no IANA identifier but parses as a signed
integer makes `get_timezone_name` return the plain string `'Etc/GMT' + offset`
(`main.py` line 37) instead of a timezone object, so parsing the timestamp
`"Tue Jun 15 12:00:00 2 2021"` carrying the numeric token `2` fails with the
model of `AttributeError` (a Python `str` has no `utcoffset` method, called at
line 59) instead of succeeding. -/
theorem c2_numeric_token_plain_string_parse_fails :
    get_timezone_name [zurich] (fun l => l) "2"
        = some (TZResult.str "Etc/GMT+2")
    ∧ resolvedIsZone (get_timezone_name [zurich] (fun l => l) "2") = false
    ∧ parse_switch_timestamp [zurich] (fun l => l)
        "Tue Jun 15 12:00:00 2 2021" = Except.error ParseErr.attr :=
  ⟨rfl, rfl, rfl⟩

theorem statuspage_loop_remoteFull_none :
    ∀ (fuel : Nat) (out : List Incident) (page : Nat),
      statuspage_loop remoteFull fuel out page = none := by
  intro fuel
  induction fuel with
  | zero => intro out page; rfl
  | succ f ih =>
    intro out page
    simp [statuspage_loop, get_page, remoteFull, ih]

/-- C3 (code bug): the fetch loop calls `get_page()` without the page
argument, so Python's default `page=1` is used on every request; the `page`
counter incremented at line 104 is never passed.  With a remote whose first
page holds exactly 100 incidents and whose second page has fewer than 100,
the loop never advances and never terminates — for every fuel bound the model
returns `none` — contradicting the claim that the page parameter increments
and the loop terminates once a page has fewer than 100 entries. -/
theorem c3_pagination_never_advances :
    (remoteFull 2).length < 100
    ∧ ∀ fuel : Nat, get_statuspage_maintenance remoteFull fuel = none := by
  constructor
  · simp [remoteFull]
  · intro fuel
    unfold get_statuspage_maintenance
    rw [statuspage_loop_remoteFull_none fuel [] 1]
    rfl

/-- C4 (counterexample): with a database containing `Australia/Sydney` and
`Australia/Hobart` — identifiers of equal length, both matching the
abbreviation `AEST` — two set-iteration orders that are both permutations of
the candidate set make `get_timezone_name` return different zones for the
same token, so the claimed determinism under ties fails: the result depends
on the unspecified iteration order of the Python `set`. -/
theorem c4_counterexample_tie_depends_on_set_order :
    ((fun (l : List Zone) => l) (candidates [sydney, hobart] "AEST")).Perm
        (candidates [sydney, hobart] "AEST")
    ∧ (List.reverse (candidates [sydney, hobart] "AEST")).Perm
        (candidates [sydney, hobart] "AEST")
    ∧ resolvedName (get_timezone_name [sydney, hobart] (fun l => l) "AEST")
        = some "Australia/Sydney"
    ∧ resolvedName (get_timezone_name [sydney, hobart] List.reverse "AEST")
        = some "Australia/Hobart"
    ∧ decide (("Australia/Sydney" : String) = "Australia/Hobart") = false := by
  refine ⟨List.Perm.refl _, ?_, rfl, rfl, by decide⟩
  rw [show candidates [sydney, hobart] "AEST" = [sydney, hobart] from rfl]
  exact List.Perm.swap _ _ _

/-- C4 (amended): abbreviation resolution always returns a candidate whose
canonical identifier length is minimal among the zones matching the token,
and it is deterministic — the same result under every set-iteration order —
whenever the minimal-length candidate is unique; with ties, the returned zone
is whichever minimal-length candidate the unordered set happens to yield
first. -/
theorem c4_amended_shortest_unique_deterministic
    (db : List Zone) (e1 e2 : List Zone → List Zone) (tok : String)
    (hp1 : (e1 (candidates db tok)).Perm (candidates db tok))
    (hp2 : (e2 (candidates db tok)).Perm (candidates db tok))
    (hfind : db.find? (fun z => z.zone == tok) = none)
    (hint : pyInt? tok = none) :
    (∀ z, get_timezone_name db e1 tok = some (TZResult.zone z) →
      z ∈ candidates db tok ∧ ∀ w ∈ candidates db tok,
        z.zone.length ≤ w.zone.length)
    ∧ ((∀ a ∈ candidates db tok, ∀ b ∈ candidates db tok,
          (∀ w ∈ candidates db tok, a.zone.length ≤ w.zone.length) →
          (∀ w ∈ candidates db tok, b.zone.length ≤ w.zone.length) →
          a = b) →
        get_timezone_name db e1 tok = get_timezone_name db e2 tok) := by
  have key : ∀ (e : List Zone → List Zone),
      (e (candidates db tok)).Perm (candidates db tok) →
      ∀ z, pyMinByLen (e (candidates db tok)) = some z →
        z ∈ candidates db tok ∧ ∀ w ∈ candidates db tok,
          z.zone.length ≤ w.zone.length := by
    intro e hp z hz
    obtain ⟨hmem, hmin⟩ := pyMinByLen_spec hz
    exact ⟨hp.mem_iff.mp hmem, fun w hw => hmin w (hp.mem_iff.mpr hw)⟩
  constructor
  · intro z hz
    unfold get_timezone_name at hz
    rw [hfind, hint] at hz
    cases hmin1 : pyMinByLen (e1 (candidates db tok)) with
    | none => rw [hmin1] at hz; cases hz
    | some z1 =>
      rw [hmin1] at hz
      have hz1 : z1 = z := by
        have := Option.some.inj hz
        cases this
        rfl
      rw [← hz1]
      exact key e1 hp1 z1 hmin1
  · intro huniq
    unfold get_timezone_name
    rw [hfind, hint]
    by_cases hc : candidates db tok = []
    · have he1 : e1 (candidates db tok) = [] := by
        rw [hc] at hp1 ⊢
        exact List.Perm.eq_nil hp1
      have he2 : e2 (candidates db tok) = [] := by
        rw [hc] at hp2 ⊢
        exact List.Perm.eq_nil hp2
      rw [he1, he2]
    · have h1 : e1 (candidates db tok) ≠ [] := by
        intro h
        rw [h] at hp1
        exact hc (List.Perm.eq_nil hp1.symm)
      have h2 : e2 (candidates db tok) ≠ [] := by
        intro h
        rw [h] at hp2
        exact hc (List.Perm.eq_nil hp2.symm)
      obtain ⟨z1, hz1⟩ := pyMinByLen_isSome h1
      obtain ⟨z2, hz2⟩ := pyMinByLen_isSome h2
      obtain ⟨m1, min1⟩ := key e1 hp1 z1 hz1
      obtain ⟨m2, min2⟩ := key e2 hp2 z2 hz2
      have h12 : z1 = z2 := huniq z1 m1 z2 m2 min1 min2
      rw [hz1, hz2, h12]

/-- Witness for the amended C4: in a database where `Australia/Darwin` is the
only zone abbreviated `ACST`, the resolver returns the same zone under the
identity and the reversing set-iteration orders. -/
theorem c4_amended_witness :
    get_timezone_name [darwin] (fun l => l) "ACST"
      = get_timezone_name [darwin] List.reverse "ACST" := by
  have hc : candidates [darwin] "ACST" = [darwin] := rfl
  have h := c4_amended_shortest_unique_deterministic [darwin]
    (fun l => l) List.reverse "ACST"
    (by rw [hc]) (by rw [hc]; exact List.reverse_perm _) rfl rfl
  apply h.2
  intro a ha b hb h1 h2
  rw [hc, List.mem_singleton] at ha hb
  exact ha.trans hb.symm

/-- Witness for C5: parsing the `Europe/Zurich`-tagged timestamps built from
a summer and from a winter local instant yields the DST offset (7200 s) and
the standard offset (3600 s) respectively. -/
theorem c5_parse_roundtrip_witness :
    parse_switch_timestamp [zurich] (fun l => l)
        (mkTimestamp ⟨2021, 7, 15, 12, 0, 0⟩ "Europe/Zurich")
      = Except.ok (naiveToSec ⟨2021, 7, 15, 12, 0, 0⟩ - 7200)
    ∧ parse_switch_timestamp [zurich] (fun l => l)
        (mkTimestamp ⟨2021, 1, 15, 12, 0, 0⟩ "Europe/Zurich")
      = Except.ok (naiveToSec ⟨2021, 1, 15, 12, 0, 0⟩ - 3600) := by
  constructor
  · have h := c5_parse_roundtrip [zurich] (fun l => l) ⟨2021, 7, 15, 12, 0, 0⟩
      zurich "Europe/Zurich" (by decide) (by decide) (by decide) (by decide)
      (by decide) (by decide) (by decide) (by decide) (by decide) (by decide)
      (by decide) rfl
    rw [h]
    rfl
  · have h := c5_parse_roundtrip [zurich] (fun l => l) ⟨2021, 1, 15, 12, 0, 0⟩
      zurich "Europe/Zurich" (by decide) (by decide) (by decide) (by decide)
      (by decide) (by decide) (by decide) (by decide) (by decide) (by decide)
      (by decide) rfl
    rw [h]
    rfl

/-- C6: a token that matches no IANA identifier, is not parseable as an
integer, and matches no zone's abbreviations makes the resolver fail — the
model of `UnresolvableTimezone`, `min()` over the empty candidate set — rather
than return a default zone, and the failure propagates up through
`parse_switch_timestamp` for every timestamp carrying the token. -/
theorem c6_unresolvable_token_fails
    (db : List Zone) (setIter : List Zone → List Zone) (tok : String)
    (hfind : db.find? (fun z => z.zone == tok) = none)
    (hint : pyInt? tok = none)
    (hcand : candidates db tok = [])
    (hperm : (setIter (candidates db tok)).Perm (candidates db tok)) :
    get_timezone_name db setIter tok = none
    ∧ ∀ ts : String, 2 ≤ (splitSpace ts).length →
        (splitSpace ts).getD ((splitSpace ts).length - 2) "" = tok →
        parse_switch_timestamp db setIter ts
          = Except.error ParseErr.unresolvable := by
  have hiter : setIter (candidates db tok) = [] := by
    rw [hcand] at hperm ⊢
    exact List.Perm.eq_nil hperm
  have hres : get_timezone_name db setIter tok = none := by
    unfold get_timezone_name
    rw [hfind, hint, hiter]
    rfl
  refine ⟨hres, ?_⟩
  intro ts hlen htok
  unfold parse_switch_timestamp
  rw [if_neg (by omega : ¬ ((splitSpace ts).length < 2)), htok, hres]

/-- Witness for C6: the token `ZZZ` resolves to nothing in the sample
database and the parser reports the resolution failure. -/
theorem c6_unresolvable_witness :
    get_timezone_name [zurich] (fun l => l) "ZZZ" = none
    ∧ parse_switch_timestamp [zurich] (fun l => l)
        "Mon Jun 01 12:00:00 ZZZ 2021" = Except.error ParseErr.unresolvable := by
  have h := c6_unresolvable_token_fails [zurich] (fun l => l) "ZZZ" rfl rfl rfl
    (List.Perm.refl _)
  exact ⟨h.1, h.2 "Mon Jun 01 12:00:00 ZZZ 2021" (by decide) rfl⟩

/-- C7: a MaintenanceWindow whose environment is not `production` or whose
systems do not contain `epp.nic.ch` never produces a write intent — removing
it from the input leaves the run's intents unchanged — and only incidents
with status `scheduled` are eligible to be matched. -/
theorem c7_filtered_window_no_intent
    (componentId : String) (ws1 ws2 : List SWITCHMaintenance)
    (w : SWITCHMaintenance) (incs : List Incident)
    (hw : switchKeep w = false) :
    main_intents componentId (ws1 ++ w :: ws2) incs
      = main_intents componentId (ws1 ++ ws2) incs
    ∧ ∀ (t : Int) (m : Incident),
        findMatch (statuspageFilter incs) t = some m →
        m.status = "scheduled" := by
  constructor
  · unfold main_intents main_pairs
    rw [List.filter_append, List.filter_cons, hw]
    simp [List.filter_append]
  · intro t m hm
    obtain ⟨hmem, -⟩ := findMatch_sound hm
    have h2 := List.mem_filter.mp hmem
    simpa using h2.2

/-- Witness for C7: dropping the staging-environment window changes nothing,
and the matched sample incident is scheduled. -/
theorem c7_filtered_window_witness :
    main_intents "c1" ([] ++ badw :: []) [incSched]
      = main_intents "c1" ([] ++ []) [incSched]
    ∧ incSched.status = "scheduled" := by
  have h := c7_filtered_window_no_intent "c1" [] [] badw [incSched] rfl
  exact ⟨h.1, h.2 555 incSched rfl⟩

/-- C8: idempotence — if after the first run every emitted `create` has become
a scheduled incident (with maintenance impact, as the created payload forces)
whose `scheduled_for` equals the created payload's `scheduled_for`, then a
second run over the same registry snapshot and the old incidents extended
with the new ones emits only `update` intents, never `create`. -/
theorem c8_second_run_only_updates
    (componentId : String) (sws : List SWITCHMaintenance)
    (incs news : List Incident)
    (hnew : ∀ w pay,
      (w, WriteIntent.create pay) ∈ main_pairs componentId sws incs →
      ∃ inc, inc ∈ news ∧ inc.status = "scheduled"
        ∧ inc.scheduled_for = pay.scheduled_for) :
    ∀ p ∈ main_pairs componentId sws (incs ++ news),
      ∃ targetId pay, p.2 = WriteIntent.update targetId pay := by
  intro p hp
  unfold main_pairs at hp
  obtain ⟨w, hwmem, rfl⟩ := List.mem_map.mp hp
  have hw1 : (w, reconcile_window componentId (statuspageFilter incs) w)
      ∈ main_pairs componentId sws incs := by
    unfold main_pairs
    exact List.mem_map.mpr ⟨w, hwmem, rfl⟩
  have hexists : ∃ m, m ∈ statuspageFilter (incs ++ news)
      ∧ m.scheduled_for = w.from_time := by
    cases hfm : findMatch (statuspageFilter incs) w.from_time with
    | some m =>
      obtain ⟨hmem, hsf⟩ := findMatch_sound hfm
      refine ⟨m, ?_, hsf⟩
      unfold statuspageFilter at hmem ⊢
      rw [List.filter_append]
      exact List.mem_append_left _ hmem
    | none =>
      have hre : reconcile_window componentId (statuspageFilter incs) w
          = WriteIntent.create (incident_data componentId w) := by
        unfold reconcile_window
        rw [hfm]
      rw [hre] at hw1
      obtain ⟨inc, hincmem, hsched, hsf⟩ := hnew w _ hw1
      refine ⟨inc, ?_, hsf⟩
      unfold statuspageFilter
      rw [List.filter_append]
      refine List.mem_append_right _ ?_
      exact List.mem_filter.mpr ⟨hincmem, by simpa using hsched⟩
  obtain ⟨m, hmmem, hmsf⟩ := hexists
  obtain ⟨mm, hmm⟩ := findMatch_isSome_of_mem hmmem hmsf
  refine ⟨mm.id, incident_data componentId w, ?_⟩
  show reconcile_window componentId (statuspageFilter (incs ++ news)) w = _
  unfold reconcile_window
  rw [hmm]

/-- Witness for C8: one production window, an empty first snapshot, and a
second snapshot holding the incident its `create` produced; the second run
pairs the window with an `update`. -/
theorem c8_second_run_witness :
    ∃ targetId pay,
      ((goodw, WriteIntent.update "n1" (incident_data "c1" goodw))
        : SWITCHMaintenance × WriteIntent).2
        = WriteIntent.update targetId pay := by
  have hnew : ∀ w pay,
      (w, WriteIntent.create pay) ∈ main_pairs "c1" [goodw] [] →
      ∃ inc, inc ∈ [incNew] ∧ inc.status = "scheduled"
        ∧ inc.scheduled_for = pay.scheduled_for := by
    intro w pay hp
    have hp2 : (w, WriteIntent.create pay)
        = (goodw, WriteIntent.create (incident_data "c1" goodw)) :=
      List.mem_singleton.mp hp
    have hpay : WriteIntent.create pay
        = WriteIntent.create (incident_data "c1" goodw) :=
      congrArg Prod.snd hp2
    have hpay2 : pay = incident_data "c1" goodw := by
      injection hpay
    refine ⟨incNew, List.mem_cons_self _ _, rfl, ?_⟩
    rw [hpay2]
    rfl
  have hmem : (goodw, WriteIntent.update "n1" (incident_data "c1" goodw))
      ∈ main_pairs "c1" [goodw] ([] ++ [incNew]) := by
    exact List.mem_singleton.mpr rfl
  exact c8_second_run_only_updates "c1" [goodw] [] [incNew] hnew _ hmem

/-- C9 (counterexample): for the raw string `"foo ZZZ bar"` the remaining
tokens fail the date pattern, yet the parser reports the timezone-resolution
failure — the resolver runs first, at `main.py` line 56 — not
MalformedTimestamp. -/
theorem c9_counterexample_timezone_error_first :
    strptime (new_ts_of "foo ZZZ bar") = none
    ∧ parse_switch_timestamp [zurich] (fun l => l) "foo ZZZ bar"
        = Except.error ParseErr.unresolvable
    ∧ decide (ParseErr.unresolvable = ParseErr.malformed) = false :=
  ⟨rfl, rfl, rfl⟩

/-- C9 (amended): when the rejoined remaining tokens fail the fixed date
pattern the parser returns no instant: it fails with MalformedTimestamp
whenever the timestamp has at least two tokens and its timezone token
resolves; otherwise the earlier failure (timezone resolution, or the index
error on short inputs) is reported. -/
theorem c9_amended_malformed_when_tz_resolves
    (db : List Zone) (setIter : List Zone → List Zone) (ts : String)
    (hbad : strptime (new_ts_of ts) = none) :
    (∃ err, parse_switch_timestamp db setIter ts = Except.error err)
    ∧ ∀ r, 2 ≤ (splitSpace ts).length →
        get_timezone_name db setIter
          ((splitSpace ts).getD ((splitSpace ts).length - 2) "") = some r →
        parse_switch_timestamp db setIter ts
          = Except.error ParseErr.malformed := by
  constructor
  · unfold parse_switch_timestamp
    by_cases hlen : (splitSpace ts).length < 2
    · rw [if_pos hlen]
      exact ⟨ParseErr.index, rfl⟩
    · rw [if_neg hlen]
      cases hr : get_timezone_name db setIter
          ((splitSpace ts).getD ((splitSpace ts).length - 2) "") with
      | none => exact ⟨ParseErr.unresolvable, rfl⟩
      | some tzr =>
        rw [hbad]
        exact ⟨ParseErr.malformed, rfl⟩
  · intro r hlen2 hr
    unfold parse_switch_timestamp
    rw [if_neg (by omega : ¬ ((splitSpace ts).length < 2)), hr, hbad]

/-- Witness for the amended C9: a timestamp with day 99 and a resolvable zone
token fails with the MalformedTimestamp model. -/
theorem c9_amended_witness :
    parse_switch_timestamp [zurich] (fun l => l)
      "Mon Jun 99 12:00:00 Europe/Zurich 2021"
      = Except.error ParseErr.malformed := by
  have h := c9_amended_malformed_when_tz_resolves [zurich] (fun l => l)
    "Mon Jun 99 12:00:00 Europe/Zurich 2021" rfl
  exact h.2 (TZResult.zone zurich) (by decide) rfl

/-- C10: incidents whose impact is not `maintenance` are discarded by the
fetcher before reconciliation — a window all of whose exact start-time
matches carry a different impact yields `create`, and any incident the
matcher can return out of the impact-filtered list has impact
`maintenance`. -/
theorem c10_impact_filter_forces_create
    (componentId : String) (incs : List Incident) (w : SWITCHMaintenance)
    (hall : ∀ inc ∈ incs, inc.scheduled_for = w.from_time →
      ¬ inc.impact = "maintenance") :
    reconcile_window componentId
        (statuspageFilter (statuspageImpactFilter incs)) w
      = WriteIntent.create (incident_data componentId w)
    ∧ ∀ (t : Int) (m : Incident),
        findMatch (statuspageImpactFilter incs) t = some m →
        m.impact = "maintenance" := by
  constructor
  · have hnone : findMatch (statuspageFilter (statuspageImpactFilter incs))
        w.from_time = none := by
      cases hfm : findMatch (statuspageFilter (statuspageImpactFilter incs))
          w.from_time with
      | none => rfl
      | some m =>
        exfalso
        obtain ⟨hmem, hsf⟩ := findMatch_sound hfm
        have h2 := List.mem_filter.mp hmem
        have h3 := List.mem_filter.mp h2.1
        exact (hall m h3.1 hsf) (by simpa using h3.2)
    unfold reconcile_window
    rw [hnone]
  · intro t m hm
    obtain ⟨hmem, -⟩ := findMatch_sound hm
    have h2 := List.mem_filter.mp hmem
    simpa using h2.2

/-- Witness for C10: the sample incident at the window's exact start time has
impact `major`, so the window yields a `create`. -/
theorem c10_impact_filter_witness :
    reconcile_window "c1"
        (statuspageFilter (statuspageImpactFilter [incBad])) goodw
      = WriteIntent.create (incident_data "c1" goodw) := by
  refine (c10_impact_filter_forces_create "c1" [incBad] goodw ?_).1
  intro inc hinc hsf
  rw [List.mem_singleton] at hinc
  rw [hinc]
  decide

end SwitchMaintenance
